import Mathlib

/-!
Verification of the compass-radar core: the location-history compactor
(`$recordHistory` / `parseLocationEvent`), the lazy external-source adapter
(`listeningSignal`), the async derivation adapter (`asyncComputed`), the
geodesic bearing (`calculateBearing`) and the persisted store
(`localStorageValue`).

Numeric fields of the compactor are modelled over `ℚ` (the source computes
with IEEE doubles on exact decimal inputs; all operations used here are
field operations and comparisons).  Coordinates handed to the compactor are
kept in half-turn units (the source's `degrees / 180 * π` conversion divided
by the constant `π`); the geodesic distance function is a parameter of the
compactor, since every claim about the compactor quantifies over the
distance outcome rather than the haversine values.  The trigonometric
bearing is modelled separately over `ℝ`.
-/

/-- The constant MAX_HISTORY_LENGTH from the source. -/
def MAX_HISTORY_LENGTH : ℕ := 100

/-- A stored location-history entry with fields coord, accuracy and timestamp. -/
structure HistoryEntry where
  coord : ℚ × ℚ
  accuracy : ℚ
  timestamp : ℚ
deriving DecidableEq

/-- The front-trimming step of the compactor: when the stored history length
exceeds MAX_HISTORY_LENGTH, splice off the excess from the front. -/
def trimHistory (h : List HistoryEntry) : List HistoryEntry :=
  if h.length > MAX_HISTORY_LENGTH then h.drop (h.length - MAX_HISTORY_LENGTH) else h

/-- The merge-or-append core of `$recordHistory` on the successful-fix path.
`dist` is the geodesic distance function (`distance` in the source), a
parameter of the model.  Mirrors the source line by line: trim the front,
inspect `history.at(-1)`, merge into the last entry when
`distance(coord, last.coord) < max(last.accuracy, accuracy)` and
`timestamp - last.timestamp < 30_000`, else append a fresh entry. -/
def recordHistoryPos (dist : ℚ × ℚ → ℚ × ℚ → ℚ) (history : List HistoryEntry)
    (coord : ℚ × ℚ) (accuracy timestamp : ℚ) : List HistoryEntry :=
  let history := trimHistory history
  match history.getLast? with
  | some lastEntry =>
    if dist coord lastEntry.coord < max lastEntry.accuracy accuracy ∧
        timestamp - lastEntry.timestamp < 30000 then
      let coordMergeT :=
        min accuracy lastEntry.accuracy / max accuracy lastEntry.accuracy * (1 / 2)
      let coordMerge : ℚ × ℚ :=
        if accuracy < lastEntry.accuracy then
          (coord.1 * (1 - coordMergeT) + lastEntry.coord.1 * coordMergeT,
           coord.2 * (1 - coordMergeT) + lastEntry.coord.2 * coordMergeT)
        else
          (lastEntry.coord.1 * (1 - coordMergeT) + coord.1 * coordMergeT,
           lastEntry.coord.2 * (1 - coordMergeT) + coord.2 * coordMergeT)
      history.dropLast ++
        [{ coord := coordMerge,
           accuracy := min accuracy lastEntry.accuracy,
           timestamp := (timestamp + lastEntry.timestamp) * (1 / 2) }]
    else
      history ++ [{ coord := coord, accuracy := accuracy, timestamp := timestamp }]
  | none => history ++ [{ coord := coord, accuracy := accuracy, timestamp := timestamp }]

/-- A distance function that makes every pair of samples non-mergeable
(one million meters, far above any accuracy used below). -/
def bigDist : ℚ × ℚ → ℚ × ℚ → ℚ := fun _ _ => 1000000

/-- The `i`-th raw sample used in the history-bound scenario: distinct
coordinates, accuracy 1 m, timestamps exactly 30 000 ms apart. -/
def sampleEntry (i : ℕ) : HistoryEntry :=
  { coord := ((i : ℚ), (i : ℚ)), accuracy := 1, timestamp := 30000 * i }

/-- Feed `n` raw non-mergeable samples through the compactor, starting from
an empty history. -/
def insertSamples (n : ℕ) : List HistoryEntry :=
  (List.range n).foldl
    (fun h i => recordHistoryPos bigDist h ((i : ℚ), (i : ℚ)) 1 (30000 * i)) []

theorem trimHistory_length (h : List HistoryEntry) :
    (trimHistory h).length = min h.length MAX_HISTORY_LENGTH := by
  unfold trimHistory
  split
  · simp only [List.length_drop]
    omega
  · omega

theorem trimHistory_eq_self (h : List HistoryEntry)
    (hlen : h.length ≤ MAX_HISTORY_LENGTH) : trimHistory h = h := by
  unfold trimHistory
  split
  · omega
  · rfl

theorem recordHistoryPos_of_getLast_none (dist : ℚ × ℚ → ℚ × ℚ → ℚ)
    (h : List HistoryEntry) (c : ℚ × ℚ) (a t : ℚ)
    (hlast : (trimHistory h).getLast? = none) :
    recordHistoryPos dist h c a t =
      trimHistory h ++ [{ coord := c, accuracy := a, timestamp := t }] := by
  simp only [recordHistoryPos]
  rw [hlast]

theorem recordHistoryPos_of_getLast_some (dist : ℚ × ℚ → ℚ × ℚ → ℚ)
    (h : List HistoryEntry) (c : ℚ × ℚ) (a t : ℚ) (lastEntry : HistoryEntry)
    (hlast : (trimHistory h).getLast? = some lastEntry) :
    recordHistoryPos dist h c a t =
      if dist c lastEntry.coord < max lastEntry.accuracy a ∧
          t - lastEntry.timestamp < 30000 then
        (trimHistory h).dropLast ++
          [{ coord :=
               if a < lastEntry.accuracy then
                 (c.1 * (1 - min a lastEntry.accuracy / max a lastEntry.accuracy * (1 / 2)) +
                    lastEntry.coord.1 * (min a lastEntry.accuracy / max a lastEntry.accuracy * (1 / 2)),
                  c.2 * (1 - min a lastEntry.accuracy / max a lastEntry.accuracy * (1 / 2)) +
                    lastEntry.coord.2 * (min a lastEntry.accuracy / max a lastEntry.accuracy * (1 / 2)))
               else
                 (lastEntry.coord.1 * (1 - min a lastEntry.accuracy / max a lastEntry.accuracy * (1 / 2)) +
                    c.1 * (min a lastEntry.accuracy / max a lastEntry.accuracy * (1 / 2)),
                  lastEntry.coord.2 * (1 - min a lastEntry.accuracy / max a lastEntry.accuracy * (1 / 2)) +
                    c.2 * (min a lastEntry.accuracy / max a lastEntry.accuracy * (1 / 2))),
             accuracy := min a lastEntry.accuracy,
             timestamp := (t + lastEntry.timestamp) * (1 / 2) }]
      else
        trimHistory h ++ [{ coord := c, accuracy := a, timestamp := t }] := by
  simp only [recordHistoryPos]
  rw [hlast]

theorem recordHistoryPos_length_le (dist : ℚ × ℚ → ℚ × ℚ → ℚ)
    (h : List HistoryEntry) (c : ℚ × ℚ) (a t : ℚ) :
    (recordHistoryPos dist h c a t).length ≤ MAX_HISTORY_LENGTH + 1 := by
  have htrim := trimHistory_length h
  cases hlast : (trimHistory h).getLast? with
  | none =>
    rw [recordHistoryPos_of_getLast_none dist h c a t hlast]
    simp only [List.length_append, List.length_cons, List.length_nil]
    omega
  | some lastEntry =>
    have hne : trimHistory h ≠ [] := by
      intro hnil
      rw [hnil] at hlast
      simp at hlast
    have hpos : 0 < (trimHistory h).length := List.length_pos.mpr hne
    rw [recordHistoryPos_of_getLast_some dist h c a t lastEntry hlast]
    split
    · simp only [List.length_append, List.length_dropLast, List.length_cons,
        List.length_nil]
      omega
    · simp only [List.length_append, List.length_cons, List.length_nil]
      omega

section SemireducibleRat

attribute [local semireducible] Rat.mul Rat.add Rat.sub Rat.inv

set_option maxRecDepth 40000 in
/-- C1 counterexample.  The compactor trims the front of the history *before*
appending, so the stored sequence stabilises at 101 entries, not 100: after
inserting 150 raw non-mergeable samples starting from an empty history, the
stored history length is 101, contradicting the claimed bound of
MAX_HISTORY_LENGTH = 100. -/
theorem history_bound_150_counterexample :
    (insertSamples 150).length = 101 ∧ ¬ (insertSamples 150).length = 100 := by
  decide

set_option maxRecDepth 40000 in
/-- C1 amended.  After each insertion the history length never exceeds
MAX_HISTORY_LENGTH + 1 = 101; after inserting 150 raw non-mergeable samples
the history length equals 101 and the retained entries are the 101 most
recent samples in original insertion order (samples 49 through 149). -/
theorem history_bound_amended :
    (∀ (dist : ℚ × ℚ → ℚ × ℚ → ℚ) (h : List HistoryEntry) (c : ℚ × ℚ) (a t : ℚ),
      (recordHistoryPos dist h c a t).length ≤ MAX_HISTORY_LENGTH + 1) ∧
    (insertSamples 150).length = MAX_HISTORY_LENGTH + 1 ∧
    insertSamples 150 = (List.range 101).map (fun i => sampleEntry (49 + i)) := by
  refine ⟨recordHistoryPos_length_le, ?_, ?_⟩
  · decide
  · decide


/-- C5.  With a prior history entry present (and the history within the
length bound, so that front-trimming is the identity), the compactor merges
into the last entry exactly when
dist(coord, last.coord) < max(last.accuracy, accuracy) and
timestamp - last.timestamp < 30000, both comparisons strict; when the
condition fails (in particular at distance exactly equal to the accuracy
maximum, or at exactly 30000 ms elapsed) it appends a fresh entry, and the
result is never of merged shape. -/
theorem merge_condition_strict (dist : ℚ × ℚ → ℚ × ℚ → ℚ) (h : List HistoryEntry)
    (c : ℚ × ℚ) (a t : ℚ) (lastEntry : HistoryEntry)
    (hlen : h.length ≤ MAX_HISTORY_LENGTH) (hlast : h.getLast? = some lastEntry) :
    (dist c lastEntry.coord < max lastEntry.accuracy a ∧ t - lastEntry.timestamp < 30000 →
      ∃ merged, recordHistoryPos dist h c a t = h.dropLast ++ [merged]) ∧
    (¬ (dist c lastEntry.coord < max lastEntry.accuracy a ∧ t - lastEntry.timestamp < 30000) →
      recordHistoryPos dist h c a t =
        h ++ [{ coord := c, accuracy := a, timestamp := t }] ∧
      ∀ e, recordHistoryPos dist h c a t ≠ h.dropLast ++ [e]) ∧
    (dist c lastEntry.coord = max lastEntry.accuracy a →
      recordHistoryPos dist h c a t =
        h ++ [{ coord := c, accuracy := a, timestamp := t }]) ∧
    (t - lastEntry.timestamp = 30000 →
      recordHistoryPos dist h c a t =
        h ++ [{ coord := c, accuracy := a, timestamp := t }]) := by
  have htrim : trimHistory h = h := trimHistory_eq_self h hlen
  have hlast' : (trimHistory h).getLast? = some lastEntry := by rw [htrim]; exact hlast
  have hne : h ≠ [] := by
    intro hnil
    rw [hnil] at hlast
    simp at hlast
  have hkey := recordHistoryPos_of_getLast_some dist h c a t lastEntry hlast'
  rw [htrim] at hkey
  have happend :
      ¬ (dist c lastEntry.coord < max lastEntry.accuracy a ∧
          t - lastEntry.timestamp < 30000) →
      recordHistoryPos dist h c a t =
        h ++ [{ coord := c, accuracy := a, timestamp := t }] := by
    intro hcond
    rw [hkey, if_neg hcond]
  refine ⟨?_, ?_, ?_, ?_⟩
  · intro hcond
    rw [hkey, if_pos hcond]
    exact ⟨_, rfl⟩
  · intro hcond
    refine ⟨happend hcond, ?_⟩
    intro e heq
    have hlen1 :
        (h ++ [({ coord := c, accuracy := a, timestamp := t } : HistoryEntry)]).length =
        (h.dropLast ++ [e]).length := by rw [← happend hcond, heq]
    have hpos : 0 < h.length := List.length_pos.mpr hne
    simp only [List.length_append, List.length_dropLast, List.length_cons,
      List.length_nil] at hlen1
    omega
  · intro heq
    refine happend ?_
    rintro ⟨hlt, -⟩
    rw [heq] at hlt
    exact lt_irrefl _ hlt
  · intro heq
    refine happend ?_
    rintro ⟨-, hlt⟩
    rw [heq] at hlt
    exact absurd hlt (lt_irrefl _)

/-- Concrete last entry used by the compactor witnesses: accuracy 2 m at
timestamp 1000 ms. -/
def witnessLast : HistoryEntry := { coord := (0, 0), accuracy := 2, timestamp := 1000 }

/-- Concrete one-entry history used by the compactor witnesses. -/
def witnessHistory : List HistoryEntry := [witnessLast]

/-- Concrete fresh entry appended when the merge condition fails. -/
def witnessFresh : HistoryEntry := { coord := (3, 4), accuracy := 1, timestamp := 2000 }

/-- C5 witness: the merge characterisation instantiated at the concrete
one-entry history, a new sample with accuracy 1 at timestamp 2000, and the
non-mergeable distance function. -/
theorem merge_condition_strict_witness :
    witnessHistory.length ≤ MAX_HISTORY_LENGTH ∧
    witnessHistory.getLast? = some witnessLast ∧
    ((bigDist (3, 4) witnessLast.coord < max witnessLast.accuracy 1 ∧
        (2000 : ℚ) - witnessLast.timestamp < 30000 →
      ∃ merged, recordHistoryPos bigDist witnessHistory (3, 4) 1 2000 =
          witnessHistory.dropLast ++ [merged]) ∧
     (¬ (bigDist (3, 4) witnessLast.coord < max witnessLast.accuracy 1 ∧
        (2000 : ℚ) - witnessLast.timestamp < 30000) →
      recordHistoryPos bigDist witnessHistory (3, 4) 1 2000 =
        witnessHistory ++ [witnessFresh] ∧
      ∀ e, recordHistoryPos bigDist witnessHistory (3, 4) 1 2000 ≠
        witnessHistory.dropLast ++ [e]) ∧
     (bigDist (3, 4) witnessLast.coord = max witnessLast.accuracy 1 →
      recordHistoryPos bigDist witnessHistory (3, 4) 1 2000 =
        witnessHistory ++ [witnessFresh]) ∧
     ((2000 : ℚ) - witnessLast.timestamp = 30000 →
      recordHistoryPos bigDist witnessHistory (3, 4) 1 2000 =
        witnessHistory ++ [witnessFresh])) :=
  ⟨by decide, by decide,
    merge_condition_strict bigDist witnessHistory (3, 4) 1 2000 witnessLast
      (by decide) (by decide)⟩

/-- C6.  When the merge condition holds, the replaced last entry is the
accuracy-weighted blend with t = min(acc, lastAcc) / max(acc, lastAcc) * 0.5:
the more accurate position (smaller accuracy value) is weighted 1 - t and the
less accurate one is weighted t, componentwise; the merged accuracy is
min(acc, lastAcc) and the merged timestamp is the average of the two
timestamps. -/
theorem merge_blend_formula (dist : ℚ × ℚ → ℚ × ℚ → ℚ) (h : List HistoryEntry)
    (c : ℚ × ℚ) (a t : ℚ) (lastEntry : HistoryEntry)
    (hlen : h.length ≤ MAX_HISTORY_LENGTH) (hlast : h.getLast? = some lastEntry)
    (hcond : dist c lastEntry.coord < max lastEntry.accuracy a ∧
      t - lastEntry.timestamp < 30000) :
    (a < lastEntry.accuracy →
      recordHistoryPos dist h c a t =
        h.dropLast ++
          [{ coord :=
               (c.1 * (1 - min a lastEntry.accuracy / max a lastEntry.accuracy * (1 / 2)) +
                  lastEntry.coord.1 * (min a lastEntry.accuracy / max a lastEntry.accuracy * (1 / 2)),
                c.2 * (1 - min a lastEntry.accuracy / max a lastEntry.accuracy * (1 / 2)) +
                  lastEntry.coord.2 * (min a lastEntry.accuracy / max a lastEntry.accuracy * (1 / 2))),
             accuracy := min a lastEntry.accuracy,
             timestamp := (t + lastEntry.timestamp) / 2 }]) ∧
    (lastEntry.accuracy ≤ a →
      recordHistoryPos dist h c a t =
        h.dropLast ++
          [{ coord :=
               (lastEntry.coord.1 * (1 - min a lastEntry.accuracy / max a lastEntry.accuracy * (1 / 2)) +
                  c.1 * (min a lastEntry.accuracy / max a lastEntry.accuracy * (1 / 2)),
                lastEntry.coord.2 * (1 - min a lastEntry.accuracy / max a lastEntry.accuracy * (1 / 2)) +
                  c.2 * (min a lastEntry.accuracy / max a lastEntry.accuracy * (1 / 2))),
             accuracy := min a lastEntry.accuracy,
             timestamp := (t + lastEntry.timestamp) / 2 }]) := by
  have htrim : trimHistory h = h := trimHistory_eq_self h hlen
  have hlast' : (trimHistory h).getLast? = some lastEntry := by rw [htrim]; exact hlast
  have hkey := recordHistoryPos_of_getLast_some dist h c a t lastEntry hlast'
  rw [htrim] at hkey
  constructor
  · intro hacc
    rw [hkey, if_pos hcond, if_pos hacc]
    simp only [mul_one_div]
  · intro hacc
    rw [hkey, if_pos hcond, if_neg (not_lt.mpr hacc)]
    simp only [mul_one_div]

/-- A distance function that makes the concrete witness samples mergeable
(one meter). -/
def smallDist : ℚ × ℚ → ℚ × ℚ → ℚ := fun _ _ => 1

/-- C6 witness: blending a sample with accuracy 1 at timestamp 2000 into the
concrete last entry with accuracy 2 at timestamp 1000, at distance 1. -/
theorem merge_blend_formula_witness :
    witnessHistory.length ≤ MAX_HISTORY_LENGTH ∧
    witnessHistory.getLast? = some witnessLast ∧
    (smallDist (3, 4) witnessLast.coord < max witnessLast.accuracy 1 ∧
      (2000 : ℚ) - witnessLast.timestamp < 30000) ∧
    (((1 : ℚ) < witnessLast.accuracy →
      recordHistoryPos smallDist witnessHistory (3, 4) 1 2000 =
        witnessHistory.dropLast ++
          [{ coord :=
               ((3 : ℚ) * (1 - min 1 witnessLast.accuracy / max 1 witnessLast.accuracy * (1 / 2)) +
                  witnessLast.coord.1 * (min 1 witnessLast.accuracy / max 1 witnessLast.accuracy * (1 / 2)),
                (4 : ℚ) * (1 - min 1 witnessLast.accuracy / max 1 witnessLast.accuracy * (1 / 2)) +
                  witnessLast.coord.2 * (min 1 witnessLast.accuracy / max 1 witnessLast.accuracy * (1 / 2))),
             accuracy := min 1 witnessLast.accuracy,
             timestamp := ((2000 : ℚ) + witnessLast.timestamp) / 2 }]) ∧
     (witnessLast.accuracy ≤ (1 : ℚ) →
      recordHistoryPos smallDist witnessHistory (3, 4) 1 2000 =
        witnessHistory.dropLast ++
          [{ coord :=
               (witnessLast.coord.1 * (1 - min 1 witnessLast.accuracy / max 1 witnessLast.accuracy * (1 / 2)) +
                  (3 : ℚ) * (min 1 witnessLast.accuracy / max 1 witnessLast.accuracy * (1 / 2)),
                witnessLast.coord.2 * (1 - min 1 witnessLast.accuracy / max 1 witnessLast.accuracy * (1 / 2)) +
                  (4 : ℚ) * (min 1 witnessLast.accuracy / max 1 witnessLast.accuracy * (1 / 2))),
             accuracy := min 1 witnessLast.accuracy,
             timestamp := ((2000 : ℚ) + witnessLast.timestamp) / 2 }])) :=
  ⟨by decide, by decide, by decide,
    merge_blend_formula smallDist witnessHistory (3, 4) 1 2000 witnessLast
      (by decide) (by decide) (by decide)⟩

/-- A geolocation reading as seen by the compactor: a successful position
fix carrying degree coordinates, accuracy and timestamp, an error-shaped
value (GeolocationPositionError with code and message), or no value at all. -/
inductive GeoValue where
  | position (latDeg lonDeg accuracy timestamp : ℚ)
  | positionError (code : ℕ) (message : String)
  | noValue
deriving DecidableEq

/-- An exception thrown by parseLocationEvent: either the rethrown
error-shaped value, or the generic no-location-available error. -/
inductive GeoFailure where
  | thrownPositionError (code : ℕ) (message : String)
  | noLocationAvailable
deriving DecidableEq

/-- Whether a geolocation reading is a successful position fix
(the instanceof GeolocationPosition test in the source). -/
def GeoValue.isPosition : GeoValue → Bool
  | .position _ _ _ _ => true
  | _ => false

/-- The source function parseLocationEvent: throws the event itself when it
is error-shaped, throws a no-location error when the event is absent, and
otherwise converts the degree coordinates.  Coordinates are produced in
half-turn units (degrees divided by 180; the source further multiplies by
the constant pi to obtain radians). -/
def parseLocationEvent : GeoValue → Except GeoFailure (ℚ × ℚ)
  | .positionError code message => .error (.thrownPositionError code message)
  | .noValue => .error .noLocationAvailable
  | .position latDeg lonDeg _ _ => .ok (latDeg / 180, lonDeg / 180)

/-- The full compactor entry point: when the reading is not a successful
position fix it returns the reading unchanged with the history untouched
(the early return in the source); on a position fix it parses the
coordinate and runs the merge-or-append core.  An Except.error result
models a thrown exception; the source guard means the position branch never
throws. -/
def recordHistory (dist : ℚ × ℚ → ℚ × ℚ → ℚ) (loc : GeoValue)
    (history : List HistoryEntry) : Except GeoFailure (GeoValue × List HistoryEntry) :=
  match loc with
  | .position _ _ accuracy timestamp =>
    match parseLocationEvent loc with
    | .error e => .error e
    | .ok coord => .ok (loc, recordHistoryPos dist history coord accuracy timestamp)
  | other => .ok (other, history)

/-- C8 counterexample.  Given an error-shaped reading (or no reading), the
compactor does not throw: it returns the reading unchanged, leaving the
stored history untouched, so the claim that it fails loudly by throwing is
false on the code (only the parseLocationEvent helper throws, and the
compactor's early-return guard keeps it from being reached). -/
theorem compactor_error_no_throw_counterexample :
    recordHistory bigDist (GeoValue.positionError 1 "User denied Geolocation")
        witnessHistory =
      Except.ok (GeoValue.positionError 1 "User denied Geolocation", witnessHistory) ∧
    recordHistory bigDist GeoValue.noValue witnessHistory =
      Except.ok (GeoValue.noValue, witnessHistory) ∧
    parseLocationEvent (GeoValue.positionError 1 "User denied Geolocation") =
      Except.error (GeoFailure.thrownPositionError 1 "User denied Geolocation") :=
  ⟨rfl, rfl, rfl⟩

/-- C8 amended.  When the compactor is given something other than a
successful position fix, it passes the value through unchanged without
throwing and the stored history is left unchanged (the error sample is
never merged or appended); the throwing behaviour lives only in the
parseLocationEvent helper, which the compactor's guard prevents from being
reached on this path. -/
theorem compactor_error_passthrough (dist : ℚ × ℚ → ℚ × ℚ → ℚ) (loc : GeoValue)
    (h : List HistoryEntry) (hpos : loc.isPosition = false) :
    recordHistory dist loc h = Except.ok (loc, h) ∧
    ∃ e, parseLocationEvent loc = Except.error e := by
  cases loc with
  | position latDeg lonDeg accuracy timestamp => simp [GeoValue.isPosition] at hpos
  | positionError code message =>
    exact ⟨rfl, GeoFailure.thrownPositionError code message, rfl⟩
  | noValue => exact ⟨rfl, GeoFailure.noLocationAvailable, rfl⟩

/-- C8 witness: the passthrough theorem instantiated at a concrete
error-shaped reading and a concrete one-entry history. -/
theorem compactor_error_passthrough_witness :
    (GeoValue.positionError 2 "Position unavailable").isPosition = false ∧
    (recordHistory smallDist (GeoValue.positionError 2 "Position unavailable")
        witnessHistory =
      Except.ok (GeoValue.positionError 2 "Position unavailable", witnessHistory) ∧
    ∃ e, parseLocationEvent (GeoValue.positionError 2 "Position unavailable") =
      Except.error e) :=
  ⟨by decide,
    compactor_error_passthrough smallDist
      (GeoValue.positionError 2 "Position unavailable") witnessHistory (by decide)⟩

/-- The in-memory state of a localStorageValue store: the cached value (the
let-bound variable, none when it is undefined) and the parsed persisted
record (none when no record is stored under the key). -/
structure StoreState (T : Type) where
  cache : Option T
  backing : Option T

/-- The get operation of localStorageValue: when the cache is unset, read
the persisted record; when it is present, parse and cache it, otherwise
fall back to the default value (caching it as well).  Returns the value
together with the updated store state. -/
def StoreState.get (s : StoreState T) (defaultValue : Option T) :
    Option T × StoreState T :=
  match s.cache with
  | some v => (some v, s)
  | none =>
    match s.backing with
    | some savedValue => (some savedValue, { s with cache := some savedValue })
    | none => (defaultValue, { s with cache := defaultValue })

/-- The set operation of localStorageValue: cache the new value and rewrite
the persisted record in full. -/
def StoreState.set (_ : StoreState T) (newValue : T) : StoreState T :=
  { cache := some newValue, backing := some newValue }

/-- The clear operation of localStorageValue: reset the cache to undefined
and remove the persisted record. -/
def StoreState.clear (_ : StoreState T) : StoreState T :=
  { cache := none, backing := none }

/-- C10.  For a store constructed without a default value (as the bookmark
store is), a get after clear returns undefined, not an empty list: clear
resets the cache and removes the backing record, so the next get re-reads
the absent record and falls back to the absent default. -/
theorem clear_then_get_undefined (α : Type) (s : StoreState (List α)) :
    (s.clear.get none).1 = none ∧
    (s.clear.get none).1 ≠ some [] ∧
    s.clear.cache = none ∧
    s.clear.backing = none :=
  ⟨rfl, fun hcontra => Option.noConfusion hcontra, rfl, rfl⟩

/-- The observable state of a listeningSignal adapter.  value mirrors the
inner source signal; subscribed tells whether the captured teardown
(cleanup) is present; used is the plain flag set by reads and reset by
updates; stale tells whether the derived computed must re-run its body on
the next read (the reactive graph memoizes the computed until the source
signal it reads is set again; the computed has never run initially, so the
initial state is stale); pending counts scheduled but not yet fired idle
checks (setTimeout callbacks); setupCount and teardownCount count the calls
made to the external setup and teardown functions. -/
structure AdapterState (T : Type) where
  value : Option T
  subscribed : Bool
  used : Bool
  stale : Bool
  pending : ℕ
  setupCount : ℕ
  teardownCount : ℕ
deriving DecidableEq

/-- The state of a listeningSignal adapter before any read: no value, not
subscribed, never run. -/
def adapterInit (T : Type) : AdapterState T :=
  { value := none, subscribed := false, used := false, stale := true,
    pending := 0, setupCount := 0, teardownCount := 0 }

/-- A read of the adapter's derived value.  When the computed is stale it
re-runs its body: if no cleanup is captured it calls setup (capturing a new
subscription), then marks the adapter used and returns the current inner
value; when the computed is not stale the memoized value is returned with
no side effects. -/
def adapterRead (s : AdapterState T) : Option T × AdapterState T :=
  if s.stale then
    if s.subscribed then
      (s.value, { s with used := true, stale := false })
    else
      (s.value, { s with subscribed := true, setupCount := s.setupCount + 1,
                         used := true, stale := false })
  else (s.value, s)

/-- An update pushed by the external source: clear the used flag, store the
new value into the inner signal (making the derived computed stale), and
schedule an idle check with setTimeout. -/
def adapterUpdate (s : AdapterState T) (v : T) : AdapterState T :=
  { s with used := false, value := some v, stale := true,
           pending := s.pending + 1 }

/-- A scheduled idle check firing: if the adapter has not been used since
the last update and a subscription is captured, call teardown and drop the
captured cleanup; otherwise do nothing.  A check can only fire when one is
pending. -/
def adapterIdleCheck (s : AdapterState T) : AdapterState T :=
  if s.pending = 0 then s
  else
    let s' := { s with pending := s.pending - 1 }
    if s'.used = false ∧ s'.subscribed = true then
      { s' with subscribed := false, teardownCount := s'.teardownCount + 1 }
    else s'

/-- An event in the single-threaded cooperative schedule of the adapter. -/
inductive AdapterEvent (T : Type) where
  | read
  | update (v : T)
  | idleCheck
deriving DecidableEq

/-- One scheduler step of the adapter. -/
def adapterStep (s : AdapterState T) : AdapterEvent T → AdapterState T
  | .read => (adapterRead s).2
  | .update v => adapterUpdate s v
  | .idleCheck => adapterIdleCheck s

/-- Run a sequence of scheduler events from a given adapter state.
Scheduled idle checks fire in FIFO order, so the first idleCheck event
after an update is the check that update scheduled. -/
def runAdapter (s : AdapterState T) (events : List (AdapterEvent T)) : AdapterState T :=
  events.foldl adapterStep s

/-- A concrete subscribed adapter state: the state reached after the very
first read of a fresh adapter. -/
def demoSubscribed : AdapterState ℕ := (adapterRead (adapterInit ℕ)).2

/-- C2 counterexample.  Teardown does not reset the inner signal: after a
read, an update pushing 5, and the idle check (which tears the subscription
down, teardownCount = 1), the next read returns the retained value 5 — not
undefined — even though the source has not pushed since the teardown. -/
theorem read_after_teardown_value_counterexample :
    (runAdapter (adapterInit ℕ) [.read, .update 5, .idleCheck]).teardownCount = 1 ∧
    (runAdapter (adapterInit ℕ) [.read, .update 5, .idleCheck]).subscribed = false ∧
    (adapterRead (runAdapter (adapterInit ℕ) [.read, .update 5, .idleCheck])).1 = some 5 ∧
    (adapterRead (runAdapter (adapterInit ℕ) [.read, .update 5, .idleCheck])).1 ≠ none := by
  decide

/-- C2 amended.  From any subscribed state, after an update with no read and
the deferred idle check (which calls teardown), a subsequent read triggers a
fresh setup call and returns the last value pushed before the teardown (the
stored value is retained, not reset to undefined). -/
theorem read_after_teardown_amended (T : Type) (s : AdapterState T) (v : T)
    (hsub : s.subscribed = true) :
    (runAdapter s [.update v, .idleCheck]).subscribed = false ∧
    (runAdapter s [.update v, .idleCheck]).teardownCount = s.teardownCount + 1 ∧
    (adapterRead (runAdapter s [.update v, .idleCheck])).2.setupCount =
      (runAdapter s [.update v, .idleCheck]).setupCount + 1 ∧
    (adapterRead (runAdapter s [.update v, .idleCheck])).2.subscribed = true ∧
    (adapterRead (runAdapter s [.update v, .idleCheck])).1 = some v := by
  simp [runAdapter, adapterStep, adapterUpdate, adapterIdleCheck, adapterRead, hsub]

/-- C2 witness: the amended theorem instantiated at the concrete subscribed
state and the pushed value 7. -/
theorem read_after_teardown_amended_witness :
    demoSubscribed.subscribed = true ∧
    ((runAdapter demoSubscribed [.update 7, .idleCheck]).subscribed = false ∧
     (runAdapter demoSubscribed [.update 7, .idleCheck]).teardownCount =
       demoSubscribed.teardownCount + 1 ∧
     (adapterRead (runAdapter demoSubscribed [.update 7, .idleCheck])).2.setupCount =
       (runAdapter demoSubscribed [.update 7, .idleCheck]).setupCount + 1 ∧
     (adapterRead (runAdapter demoSubscribed [.update 7, .idleCheck])).2.subscribed = true ∧
     (adapterRead (runAdapter demoSubscribed [.update 7, .idleCheck])).1 = some 7) :=
  ⟨by decide, read_after_teardown_amended ℕ demoSubscribed 7 (by decide)⟩

/-- C3 counterexample.  Idle checks fire in FIFO order, so in the trace
read, update 1, read, update 2, idleCheck the single fired check is the one
scheduled by update 1, and a read did occur between update 1 and that
check; yet the check tears the live subscription down (teardownCount = 1),
because update 2 reset the used flag before the check fired.  This also
refutes the rapid update-read-update instance of the claim. -/
theorem no_teardown_on_active_use_counterexample :
    (runAdapter (adapterInit ℕ)
      [.read, .update 1, .read, .update 2, .idleCheck]).teardownCount = 1 ∧
    (runAdapter (adapterInit ℕ)
      [.read, .update 1, .read, .update 2, .idleCheck]).subscribed = false := by
  decide

/-- C3 amended.  If a read occurs between an update and that update's
deferred idle check and no further update intervenes before the check, the
check does not call teardown and the subscription stays live. -/
theorem no_teardown_without_intervening_update (T : Type) (s : AdapterState T)
    (v : T) (hsub : s.subscribed = true) :
    (runAdapter s [.update v, .read, .idleCheck]).teardownCount = s.teardownCount ∧
    (runAdapter s [.update v, .read, .idleCheck]).subscribed = true := by
  simp [runAdapter, adapterStep, adapterUpdate, adapterIdleCheck, adapterRead, hsub]

/-- C3 witness: the amended theorem instantiated at the concrete subscribed
state and the pushed value 3. -/
theorem no_teardown_without_intervening_update_witness :
    demoSubscribed.subscribed = true ∧
    ((runAdapter demoSubscribed [.update 3, .read, .idleCheck]).teardownCount =
       demoSubscribed.teardownCount ∧
     (runAdapter demoSubscribed [.update 3, .read, .idleCheck]).subscribed = true) :=
  ⟨by decide, no_teardown_without_intervening_update ℕ demoSubscribed 3 (by decide)⟩

/-- C4.  From any subscribed state: an update alone never changes the
teardown count or the subscription (the idle check is deferred, never
synchronous with the update); after updates with no subsequent read, the
first fired idle check calls teardown exactly once, clears the captured
subscription, and even though each update scheduled its own check the
second fired check does not tear down again; a subsequent read then calls
setup afresh. -/
theorem teardown_on_idle_exactly_once (T : Type) (s : AdapterState T) (v1 v2 : T)
    (hsub : s.subscribed = true) :
    (adapterUpdate s v1).teardownCount = s.teardownCount ∧
    (adapterUpdate s v1).subscribed = s.subscribed ∧
    (runAdapter s [.update v1, .update v2, .idleCheck]).teardownCount =
      s.teardownCount + 1 ∧
    (runAdapter s [.update v1, .update v2, .idleCheck]).subscribed = false ∧
    (runAdapter s [.update v1, .update v2, .idleCheck, .idleCheck]).teardownCount =
      s.teardownCount + 1 ∧
    (runAdapter s [.update v1, .update v2, .idleCheck, .idleCheck]).subscribed = false ∧
    (adapterRead (runAdapter s
        [.update v1, .update v2, .idleCheck, .idleCheck])).2.setupCount =
      (runAdapter s [.update v1, .update v2, .idleCheck, .idleCheck]).setupCount + 1 := by
  simp [runAdapter, adapterStep, adapterUpdate, adapterIdleCheck, adapterRead, hsub]

/-- C4 witness: the theorem instantiated at the concrete subscribed state
with pushed values 1 and 2. -/
theorem teardown_on_idle_exactly_once_witness :
    demoSubscribed.subscribed = true ∧
    ((adapterUpdate demoSubscribed 1).teardownCount = demoSubscribed.teardownCount ∧
     (adapterUpdate demoSubscribed 1).subscribed = demoSubscribed.subscribed ∧
     (runAdapter demoSubscribed [.update 1, .update 2, .idleCheck]).teardownCount =
       demoSubscribed.teardownCount + 1 ∧
     (runAdapter demoSubscribed [.update 1, .update 2, .idleCheck]).subscribed = false ∧
     (runAdapter demoSubscribed
        [.update 1, .update 2, .idleCheck, .idleCheck]).teardownCount =
       demoSubscribed.teardownCount + 1 ∧
     (runAdapter demoSubscribed
        [.update 1, .update 2, .idleCheck, .idleCheck]).subscribed = false ∧
     (adapterRead (runAdapter demoSubscribed
        [.update 1, .update 2, .idleCheck, .idleCheck])).2.setupCount =
       (runAdapter demoSubscribed
        [.update 1, .update 2, .idleCheck, .idleCheck]).setupCount + 1) :=
  ⟨by decide, teardown_on_idle_exactly_once ℕ demoSubscribed 1 2 (by decide)⟩

/-- The state of an asyncComputed adapter: the monotonically increasing
call counter and the inner result signal holding the count and value of the
most recently applied result (none before the first successful
resolution). -/
structure AsyncState (T : Type) where
  counter : ℕ
  sig : Option (ℕ × T)
deriving DecidableEq

/-- The initial asyncComputed state: counter 0, no result applied yet. -/
def initAsyncState (T : Type) : AsyncState T := { counter := 0, sig := none }

/-- Starting a compute call: the call is tagged with the current counter
value and the counter is incremented (count = counter++ in the source).
Returns the tag together with the new state. -/
def startCall (s : AsyncState T) : ℕ × AsyncState T :=
  (s.counter, { s with counter := s.counter + 1 })

/-- A compute call resolving with its tag and result: the result is applied
only when nothing has been applied yet or the applied count is smaller than
this call's count. -/
def resolveCall (s : AsyncState T) (count : ℕ) (result : T) : AsyncState T :=
  match s.sig with
  | none => { s with sig := some (count, result) }
  | some current =>
    if current.1 < count then { s with sig := some (count, result) } else s

/-- The adapter's derived output value: the value of the applied result, or
none before the first successful resolution. -/
def asyncOutput (s : AsyncState T) : Option T := s.sig.map Prod.snd

/-- C7.  A resolved compute result is applied only if its sequence number
exceeds that of the most recently applied result (it is applied
unconditionally when nothing has been applied yet); sequence numbers are
assigned in strictly increasing start order; and in the scenario where call
1 (slow) and call 2 (fast) start in order but call 2 resolves first, the
final output is call 2's result and call 1's late arrival is discarded. -/
theorem async_staleness (T : Type) (v1 v2 : T) :
    (∀ (s : AsyncState T) (cur : ℕ × T) (c : ℕ) (r : T),
      s.sig = some cur → ¬ cur.1 < c → resolveCall s c r = s) ∧
    (∀ (s : AsyncState T) (cur : ℕ × T) (c : ℕ) (r : T),
      s.sig = some cur → cur.1 < c → (resolveCall s c r).sig = some (c, r)) ∧
    (∀ (s : AsyncState T) (c : ℕ) (r : T),
      s.sig = none → (resolveCall s c r).sig = some (c, r)) ∧
    (startCall (initAsyncState T)).1 <
      (startCall (startCall (initAsyncState T)).2).1 ∧
    asyncOutput
      (resolveCall
        (resolveCall (startCall (startCall (initAsyncState T)).2).2
          (startCall (startCall (initAsyncState T)).2).1 v2)
        (startCall (initAsyncState T)).1 v1) = some v2 := by
  refine ⟨?_, ?_, ?_, ?_, ?_⟩
  · intro s cur c r hsig hnot
    simp [resolveCall, hsig, hnot]
  · intro s cur c r hsig hlt
    simp [resolveCall, hsig, hlt]
  · intro s c r hsig
    simp [resolveCall, hsig]
  · simp [startCall, initAsyncState]
  · simp [startCall, initAsyncState, resolveCall, asyncOutput]

/-- C7 witness: the suppression rules and the two-call scenario evaluated
at concrete numeric inputs. -/
theorem async_staleness_witness :
    ((AsyncState.mk 5 (some (3, 7)) : AsyncState ℕ).sig = some (3, 7) ∧
      ¬ (3 : ℕ) < 2 ∧
      resolveCall (AsyncState.mk 5 (some (3, 7))) 2 9 = AsyncState.mk 5 (some (3, 7))) ∧
    ((AsyncState.mk 5 (some (3, 7)) : AsyncState ℕ).sig = some (3, 7) ∧
      (3 : ℕ) < 4 ∧
      (resolveCall (AsyncState.mk 5 (some (3, 7))) 4 9).sig = some (4, 9)) ∧
    asyncOutput
      (resolveCall
        (resolveCall (startCall (startCall (initAsyncState ℕ)).2).2
          (startCall (startCall (initAsyncState ℕ)).2).1 20)
        (startCall (initAsyncState ℕ)).1 10) = some 20 :=
  ⟨⟨rfl, by decide,
      (async_staleness ℕ 10 20).1 (AsyncState.mk 5 (some (3, 7))) (3, 7) 2 9 rfl
        (by decide)⟩,
    ⟨rfl, by decide,
      (async_staleness ℕ 10 20).2.1 (AsyncState.mk 5 (some (3, 7))) (3, 7) 4 9 rfl
        (by decide)⟩,
    (async_staleness ℕ 10 20).2.2.2.2⟩

/-- JS remainder on reals: a - b * trunc(a / b), the semantics of the
percent operator used by the source's bearing normalisation. -/
noncomputable def jsFmod (a b : ℝ) : ℝ :=
  if 0 ≤ a / b then a - b * ⌊a / b⌋ else a - b * ⌈a / b⌉

/-- Math.atan2 y x: the angle of the point with ordinate y and abscissa x,
in the interval from -pi exclusive to pi inclusive. -/
noncomputable def atan2 (y x : ℝ) : ℝ := Complex.arg ⟨x, y⟩

/-- The source function calculateBearing: initial great-circle bearing from
origin to other (radian coordinates), normalised into a single turn by the
double remainder construction of the source. -/
noncomputable def calculateBearing (origin other : ℝ × ℝ) : ℝ :=
  let dlon := other.2 - origin.2
  let x := Real.sin dlon * Real.cos other.1
  let y := Real.cos origin.1 * Real.sin other.1 -
    Real.sin origin.1 * Real.cos other.1 * Real.cos dlon
  jsFmod (jsFmod (atan2 x y) (2 * Real.pi) + 2 * Real.pi) (2 * Real.pi)

theorem jsFmod_self_of_mem (θ : ℝ) (h1 : -Real.pi < θ) (h2 : θ ≤ Real.pi) :
    jsFmod θ (2 * Real.pi) = θ := by
  have hpi := Real.pi_pos
  have hb : 0 < 2 * Real.pi := by linarith
  unfold jsFmod
  by_cases hnn : 0 ≤ θ / (2 * Real.pi)
  · rw [if_pos hnn]
    have hfloor : ⌊θ / (2 * Real.pi)⌋ = 0 := by
      rw [Int.floor_eq_zero_iff]
      constructor
      · exact hnn
      · rw [div_lt_one hb]
        linarith
    rw [hfloor]
    simp
  · rw [if_neg hnn]
    have hceil : ⌈θ / (2 * Real.pi)⌉ = 0 := by
      rw [Int.ceil_eq_zero_iff]
      constructor
      · rw [lt_div_iff₀ hb]
        linarith
      · exact le_of_not_le (fun hc => hnn hc)
    rw [hceil]
    simp

theorem jsFmod_shift_mem (θ : ℝ) (h1 : -Real.pi < θ) (h2 : θ ≤ Real.pi) :
    jsFmod (θ + 2 * Real.pi) (2 * Real.pi) ∈ Set.Ico 0 (2 * Real.pi) := by
  have hpi := Real.pi_pos
  have hb : 0 < 2 * Real.pi := by linarith
  have hupos : 0 < θ + 2 * Real.pi := by linarith
  have hnn : 0 ≤ (θ + 2 * Real.pi) / (2 * Real.pi) := by positivity
  unfold jsFmod
  rw [if_pos hnn]
  by_cases hlt : θ + 2 * Real.pi < 2 * Real.pi
  · have hfloor : ⌊(θ + 2 * Real.pi) / (2 * Real.pi)⌋ = 0 := by
      rw [Int.floor_eq_zero_iff]
      exact ⟨hnn, by rw [div_lt_one hb]; linarith⟩
    rw [hfloor]
    constructor
    · simpa using hupos.le
    · simpa using hlt
  · have hge : 2 * Real.pi ≤ θ + 2 * Real.pi := le_of_not_lt hlt
    have hfloor : ⌊(θ + 2 * Real.pi) / (2 * Real.pi)⌋ = 1 := by
      rw [Int.floor_eq_iff]
      constructor
      · push_cast
        rw [le_div_iff₀ hb]
        linarith
      · push_cast
        rw [div_lt_iff₀ hb]
        linarith
    rw [hfloor]
    constructor
    · push_cast
      linarith
    · push_cast
      linarith

/-- C9.  For distinct coordinates, calculateBearing returns a value in the
half-open interval from 0 inclusive to two pi exclusive (the bearing holds
in this range for all inputs; the distinctness hypothesis mirrors the
claim). -/
theorem calculateBearing_range (origin other : ℝ × ℝ) (_hne : origin ≠ other) :
    calculateBearing origin other ∈ Set.Ico 0 (2 * Real.pi) := by
  simp only [calculateBearing, atan2]
  have harg := Complex.arg_mem_Ioc
    ⟨Real.cos origin.1 * Real.sin other.1 -
      Real.sin origin.1 * Real.cos other.1 * Real.cos (other.2 - origin.2),
     Real.sin (other.2 - origin.2) * Real.cos other.1⟩
  rw [jsFmod_self_of_mem _ harg.1 harg.2]
  exact jsFmod_shift_mem _ harg.1 harg.2

/-- C9 witness: the bearing-range theorem at the concrete distinct pair of
coordinates (0, 0) and (1, 1). -/
theorem calculateBearing_range_witness :
    ((0 : ℝ), (0 : ℝ)) ≠ ((1 : ℝ), (1 : ℝ)) ∧
    calculateBearing ((0 : ℝ), (0 : ℝ)) ((1 : ℝ), (1 : ℝ)) ∈ Set.Ico 0 (2 * Real.pi) :=
  ⟨by norm_num [Prod.ext_iff],
    calculateBearing_range ((0 : ℝ), (0 : ℝ)) ((1 : ℝ), (1 : ℝ))
      (by norm_num [Prod.ext_iff])⟩

end SemireducibleRat
